import Mathlib

/-!
# Verification of the CT-PCD-GUI ROI annotation engine

Shallow embedding of the ROI store (`ROIManager.py`), the settings
round-trip helpers (`SettingsManager.py`) and the drawing/editing
interaction controller (`DrawingInteractorStyle.py`,
`src/widgets/dicom_viewer.py`) of the CT-PCD-GUI repository, together
with theorems settling the specification claims about them.

Modelling conventions:
* Python floats are modelled as rationals (`ℚ`); the only genuinely
  real-valued operation in scope, `math.hypot`, is modelled as
  `Real.sqrt` of the rational sum of squares.
* The Python `dict[int, ROI]` is modelled as an insertion-ordered
  association list with Python-dict update/pop semantics.
* VTK actors are modelled by the attributes the code sets on them that
  the claims mention (visibility, line width, colour); the renderer
  argument of the store operations is modelled by a `Bool` recording
  whether a renderer was supplied, since its presence changes how the
  store updates its own actor fields.
* Qt signal emissions are modelled as an append-only event list.
-/

namespace CTPCD

/-- A 3-D world point `(x, y, z)`; Python float triples become `ℚ` triples. -/
abbrev Point := ℚ × ℚ × ℚ

/-- An RGB colour triple. -/
abbrev Color := ℚ × ℚ × ℚ

/-- `ROI_COLORS` from `ROIManager.py`: the fixed cyclic 8-colour palette. -/
def ROI_COLORS : List Color :=
  [(1, 0.2, 0.2), (0.2, 1, 0.2), (0.3, 0.6, 1), (1, 1, 0.2),
   (1, 0.5, 0), (0.8, 0.2, 1), (0, 1, 1), (1, 0.4, 0.7)]

/-- The attributes of a `vtkActor` that the store sets: visibility
(`SetVisibility`, VTK default `true`), line width (`SetLineWidth`, VTK
default `1`) and colour (`SetColor`). -/
structure Actor where
  visible : Bool := true
  lineWidth : ℚ := 1
  color : Option Color := none
deriving Repr, DecidableEq

/-- The Qt signals of `ROIManager`, recorded as events. -/
inductive Event where
  | roiAdded (id : Nat)
  | roiRemoved (id : Nat)
  | roisChanged
  | selectionChanged (sel : Option Nat)
deriving Repr, DecidableEq

/-- The `ROI` dataclass of `ROIManager.py`. -/
structure ROI where
  roi_id : Nat
  name : String
  roi_type : String
  slice_index : Int
  orientation : Int
  points : List Point
  color : Color := (1, 0, 0)
  actor : Option Actor := none
  handles_actor : Option Actor := none
deriving Repr, DecidableEq

/-- `d.get(k)` on the association-list model of a Python dict:
the value at the first occurrence of the key, if any. -/
def assocGet {α : Type} : List (Nat × α) → Nat → Option α
  | [], _ => none
  | (k, v) :: r, i => if k = i then some v else assocGet r i

/-- `d[k] = v` on the model: update the first occurrence of the key in
place, or append a fresh binding at the end (Python dicts preserve
insertion order). -/
def assocSet {α : Type} : List (Nat × α) → Nat → α → List (Nat × α)
  | [], k, v => [(k, v)]
  | (k0, v0) :: r, k, v =>
      if k0 = k then (k0, v) :: r else (k0, v0) :: assocSet r k v

/-- `d.pop(k, None)` on the model: the removed value (if the key was
present) together with the remaining bindings. -/
def assocPop {α : Type} : List (Nat × α) → Nat → Option α × List (Nat × α)
  | [], _ => (none, [])
  | (k0, v0) :: r, k =>
      if k0 = k then (some v0, r)
      else
        let res := assocPop r k
        (res.1, (k0, v0) :: res.2)

/-- The mutable state of `ROIManager`: the id→ROI dict, the monotonic id
counter, the cyclic palette index, the selected id, and the emitted
signals. -/
structure ROIManager where
  rois : List (Nat × ROI) := []
  next_id : Nat := 1
  color_idx : Nat := 0
  selected_id : Option Nat := none
  events : List Event := []
deriving Repr, DecidableEq

/-- Append one emitted signal. -/
def emit (m : ROIManager) (e : Event) : ROIManager :=
  { m with events := m.events ++ [e] }

/-- `ROIManager.selected_roi`: `self._rois.get(self._selected_id)` when a
selection exists. -/
def selected_roi (m : ROIManager) : Option ROI :=
  match m.selected_id with
  | none => none
  | some i => assocGet m.rois i

/-- `ROIManager.next_color`: the palette colour at `color_idx % 8`, and
the advanced manager state. -/
def next_color (m : ROIManager) : Color × ROIManager :=
  (ROI_COLORS.getD (m.color_idx % ROI_COLORS.length) (0, 0, 0),
   { m with color_idx := m.color_idx + 1 })

/-- `ROIManager._build_contour_actor`: a bare actor for fewer than two
points, otherwise an actor with the ROI's colour and line width 2
(visible by default). -/
def build_contour_actor (roi : ROI) : Actor :=
  if roi.points.length < 2 then {}
  else { visible := true, lineWidth := 2, color := some roi.color }

/-- `ROIManager._build_handles_actor`: a white point-handles actor
(visible by default). -/
def build_handles_actor (_roi : ROI) : Actor :=
  { visible := true, lineWidth := 1, color := some (1, 1, 1) }

/-- `ROIManager.add_roi`: assign the next id (then advance it), take the
next palette colour when none is given, build the contour actor,
register the ROI in the dict and emit `roi_added` and `rois_changed`. -/
def add_roi (m : ROIManager) (name roi_type : String)
    (slice_index orientation : Int) (points : List Point)
    (color : Option Color := none) : ROI × ROIManager :=
  let cm := match color with
    | none => next_color m
    | some c => (c, m)
  let c := cm.1
  let m := cm.2
  let roi : ROI :=
    { roi_id := m.next_id, name := name, roi_type := roi_type,
      slice_index := slice_index, orientation := orientation,
      points := points, color := c }
  let m := { m with next_id := m.next_id + 1 }
  let roi := { roi with actor := some (build_contour_actor roi) }
  let m := { m with rois := assocSet m.rois roi.roi_id roi }
  let m := emit (emit m (.roiAdded roi.roi_id)) .roisChanged
  (roi, m)

/-- The first block of `ROIManager.select`: restore the previous
selection's contour line width to 2 and (only when a renderer was
supplied) drop its handles actor. -/
def select_prev (m : ROIManager) (renderer : Bool) : ROIManager :=
  match m.selected_id with
  | none => m
  | some pid =>
    match assocGet m.rois pid with
    | none => m
    | some prev =>
      let prev :=
        { prev with actor := prev.actor.map fun (a : Actor) => { a with lineWidth := 2 } }
      let prev :=
        if prev.handles_actor.isSome && renderer
        then { prev with handles_actor := none } else prev
      { m with rois := assocSet m.rois pid prev }

/-- The second block of `ROIManager.select`: if the newly selected id is
in the dict, thicken its contour to 3.5 and build fresh handles. -/
def select_cur (m : ROIManager) (roi_id : Option Nat) : ROIManager :=
  match roi_id with
  | none => m
  | some cid =>
    match assocGet m.rois cid with
    | none => m
    | some cur =>
      let cur :=
        { cur with actor := cur.actor.map fun (a : Actor) => { a with lineWidth := 3.5 } }
      let cur := { cur with handles_actor := some (build_handles_actor cur) }
      { m with rois := assocSet m.rois cid cur }

/-- `ROIManager.select`: handle the previous selection, record the new
selected id unconditionally (even when it is absent from the dict),
handle the new selection, emit `selection_changed`. -/
def select (m : ROIManager) (roi_id : Option Nat) (renderer : Bool) :
    ROIManager :=
  let m := select_prev m renderer
  let m := { m with selected_id := roi_id }
  let m := select_cur m roi_id
  emit m (.selectionChanged roi_id)

/-- `ROIManager.remove_roi`: deselect first when the removed id is the
selected one, then pop the id from the dict; a missing id is a no-op,
otherwise emit `roi_removed` and `rois_changed`. -/
def remove_roi (m : ROIManager) (roi_id : Nat) (renderer : Bool) :
    ROIManager :=
  let m := if m.selected_id = some roi_id then select m none renderer else m
  let pr := assocPop m.rois roi_id
  match pr.1 with
  | none => m
  | some _ => emit (emit { m with rois := pr.2 } (.roiRemoved roi_id)) .roisChanged

/-- `ROIManager.clear`: deselect, empty the dict, emit `rois_changed`. -/
def clear (m : ROIManager) (renderer : Bool) : ROIManager :=
  let m := select m none renderer
  emit { m with rois := [] } .roisChanged

/-- `ROIManager.rename_roi`: rename when the id is present and emit
`rois_changed`; a missing id is a no-op. -/
def rename_roi (m : ROIManager) (roi_id : Nat) (new_name : String) :
    ROIManager :=
  match assocGet m.rois roi_id with
  | none => m
  | some roi =>
    emit { m with rois := assocSet m.rois roi_id { roi with name := new_name } }
      .roisChanged

/-- The ROI-object mutation performed by `ROIManager._rebuild_visuals`:
a freshly built contour actor (thickened when this ROI is the selected
one), handles dropped when present and a renderer was supplied, and
fresh handles rebuilt when selected. -/
def rebuilt_roi (m : ROIManager) (roi : ROI) (renderer : Bool) : ROI :=
  let roi := { roi with actor := some (build_contour_actor roi) }
  let roi :=
    if m.selected_id = some roi.roi_id
    then { roi with actor := roi.actor.map fun (a : Actor) => { a with lineWidth := 3.5 } }
    else roi
  let roi :=
    if roi.handles_actor.isSome && renderer
    then { roi with handles_actor := none } else roi
  if m.selected_id = some roi.roi_id
  then { roi with handles_actor := some (build_handles_actor roi) }
  else roi

/-- `ROIManager._rebuild_visuals`: in Python the ROI object in the dict
is mutated in place; here the mutated object is written back at the dict
key it was found under. -/
def rebuild_visuals (m : ROIManager) (key : Nat) (roi : ROI)
    (renderer : Bool) : ROIManager :=
  { m with rois := assocSet m.rois key (rebuilt_roi m roi renderer) }

/-- `ROIManager.update_point`: replace one point when the id is present
and the index is in range, then rebuild; otherwise a no-op. -/
def update_point (m : ROIManager) (roi_id : Nat) (vertex_idx : Int)
    (new_world : Point) (renderer : Bool) : ROIManager :=
  match assocGet m.rois roi_id with
  | none => m
  | some roi =>
    if vertex_idx < 0 ∨ (roi.points.length : Int) ≤ vertex_idx then m
    else
      rebuild_visuals m roi_id
        { roi with points := roi.points.set vertex_idx.toNat new_world } renderer

/-- `ROIManager.translate_roi`: shift every point by the delta and
rebuild; a missing id is a no-op. -/
def translate_roi (m : ROIManager) (roi_id : Nat) (dx dy dz : ℚ)
    (renderer : Bool) : ROIManager :=
  match assocGet m.rois roi_id with
  | none => m
  | some roi =>
    rebuild_visuals m roi_id
      { roi with points := roi.points.map fun p => (p.1 + dx, p.2.1 + dy, p.2.2 + dz) }
      renderer

/-- Python `list.insert(i, x)` semantics: a negative index counts from
the end (clamped at the front), an index past the end appends. -/
def pyInsert {α : Type} (xs : List α) (i : Int) (x : α) : List α :=
  let n : Int := xs.length
  let j : Int := if i < 0 then max (i + n) 0 else min i n
  xs.take j.toNat ++ x :: xs.drop j.toNat

/-- `ROIManager.insert_vertex`: `roi.points.insert(edge_idx + 1, world_pt)`
followed by a rebuild and a `rois_changed` emission; a missing id is a
no-op. There is no index validation. -/
def insert_vertex (m : ROIManager) (roi_id : Nat) (edge_idx : Int)
    (world_pt : Point) (renderer : Bool) : ROIManager :=
  match assocGet m.rois roi_id with
  | none => m
  | some roi =>
    let m := rebuild_visuals m roi_id
      { roi with points := pyInsert roi.points (edge_idx + 1) world_pt } renderer
    emit m .roisChanged

/-- `ROIManager.delete_vertex`: refuse (return `false`, no mutation) when
the id is missing, the ROI has at most 3 points, or the index is out of
range; otherwise pop the point, rebuild, emit `rois_changed` and return
`true`. -/
def delete_vertex (m : ROIManager) (roi_id : Nat) (vertex_idx : Int)
    (renderer : Bool) : Bool × ROIManager :=
  match assocGet m.rois roi_id with
  | none => (false, m)
  | some roi =>
    if roi.points.length ≤ 3 then (false, m)
    else if vertex_idx < 0 ∨ (roi.points.length : Int) ≤ vertex_idx then (false, m)
    else
      let m := rebuild_visuals m roi_id
        { roi with points := roi.points.eraseIdx vertex_idx.toNat } renderer
      (true, emit m .roisChanged)

/-- The loop body of `ROIManager.update_visibility` for one ROI, given
the store's selected id: the contour actor becomes visible exactly when
the stored slice and orientation match the current ones; the handles
actor additionally requires the ROI to be the selected one. -/
def vis_roi (sel : Option Nat) (current_slice current_orientation : Int)
    (roi : ROI) : ROI :=
  let vis := roi.slice_index == current_slice
               && roi.orientation == current_orientation
  let roi := { roi with actor := roi.actor.map fun (a : Actor) => { a with visible := vis } }
  { roi with handles_actor := roi.handles_actor.map fun (a : Actor) =>
      { a with visible := vis && (sel == some roi.roi_id) } }

/-- `ROIManager.update_visibility`: apply `vis_roi` to every ROI in the
dict. -/
def update_visibility (m : ROIManager) (current_slice current_orientation : Int) :
    ROIManager :=
  { m with rois := m.rois.map fun (kv : Nat × ROI) =>
      (kv.1, vis_roi m.selected_id current_slice current_orientation kv.2) }

/-- One vertex-level mutation of the store: an `insert_vertex` or a
`delete_vertex` call (the renderer is attached in the GUI). -/
inductive VertexOp where
  | ins (roi_id : Nat) (edge_idx : Int) (pt : Point)
  | del (roi_id : Nat) (vertex_idx : Int)
deriving Repr, DecidableEq

/-- Apply one vertex operation to the store. -/
def applyVertexOp (m : ROIManager) : VertexOp → ROIManager
  | .ins i e p => insert_vertex m i e p true
  | .del i v => (delete_vertex m i v true).2

/-- Apply a sequence of vertex operations to the store. -/
def applyVertexOps (m : ROIManager) (ops : List VertexOp) : ROIManager :=
  ops.foldl applyVertexOp m

/-! ## Settings round-trip (`SettingsManager.py`) -/

/-- The serialised form of one ROI: the dict
`{name, roi_type, slice_index, orientation, points, color}` with points
and colour turned into plain JSON lists. -/
structure SerialisedROI where
  name : String
  roi_type : String
  slice_index : Int
  orientation : Int
  points : List (List ℚ)
  color : List ℚ
deriving Repr, DecidableEq

/-- Python `list(p)` on a 3-tuple. -/
def tripleToPyList (p : ℚ × ℚ × ℚ) : List ℚ := [p.1, p.2.1, p.2.2]

/-- Python `tuple(l)` on a list, restricted to the 3-element lists this
program produces (every serialised point and colour is a 3-list);
other lengths are mapped to `none` rather than to tuples of another
arity. -/
def pyListToTriple (l : List ℚ) : Option (ℚ × ℚ × ℚ) :=
  match l with
  | [x, y, z] => some (x, y, z)
  | _ => none

/-- The per-ROI body of `SettingsManager.serialise_rois`. -/
def serialise_roi (roi : ROI) : SerialisedROI :=
  { name := roi.name, roi_type := roi.roi_type,
    slice_index := roi.slice_index, orientation := roi.orientation,
    points := roi.points.map tripleToPyList,
    color := tripleToPyList roi.color }

/-- `SettingsManager.serialise_rois`: serialise every value of the dict. -/
def serialise_rois (roi_dict : List (Nat × ROI)) : List SerialisedROI :=
  roi_dict.map fun kv => serialise_roi kv.2

/-- The keyword-argument dict for `ROIManager.add_roi` produced by
`SettingsManager.deserialise_rois`. -/
structure ROIArgs where
  name : String
  roi_type : String
  slice_index : Int
  orientation : Int
  points : List Point
  color : Color
deriving Repr, DecidableEq

/-- The per-entry body of `SettingsManager.deserialise_rois`. -/
def deserialise_roi (d : SerialisedROI) : Option ROIArgs := do
  let pts ← d.points.mapM pyListToTriple
  let c ← pyListToTriple d.color
  pure { name := d.name, roi_type := d.roi_type,
         slice_index := d.slice_index, orientation := d.orientation,
         points := pts, color := c }

/-- `SettingsManager.deserialise_rois` over a whole stored list. -/
def deserialise_rois (data : List SerialisedROI) : Option (List ROIArgs) :=
  data.mapM deserialise_roi

/-! ## Interaction controller (`DrawingInteractorStyle.py` and
`src/widgets/dicom_viewer.py`) -/

/-- The draw tools. Modelled from the spec: `src/models/draw_tool.py` is
not among the provided sources; the spec lists the tools
none / edit / freehand / polygon / rectangle / ellipse, and the code
uses the values as lowercase strings. -/
inductive DrawTool where
  | NONE
  | EDIT
  | FREEHAND
  | POLYGON
  | RECTANGLE
  | ELLIPSE
deriving Repr, DecidableEq

/-- The lowercase string value of a tool. -/
def DrawTool.value : DrawTool → String
  | .NONE => "none"
  | .EDIT => "edit"
  | .FREEHAND => "freehand"
  | .POLYGON => "polygon"
  | .RECTANGLE => "rectangle"
  | .ELLIPSE => "ellipse"

/-- Python `str.capitalize()`: first character upper-cased, the rest
lower-cased. -/
def pyCapitalize (s : String) : String :=
  match s.data with
  | [] => ""
  | c :: cs => ⟨c.toUpper :: cs.map Char.toLower⟩

/-- The part of the `DrawingInteractorStyle` / viewer-widget state that
the drawing state machine reads and writes: the active tool, the draw
session (`is_drawing`, accumulated points, anchor, preview actor), the
viewer's slice and orientation, whether an `image_viewer` is attached,
the ROI store reached through `viewer_widget.roi_manager`, and the
number of `drawing_cancelled` signals emitted. -/
structure DrawingInteractorStyle where
  draw_tool : DrawTool := .NONE
  is_drawing : Bool := false
  current_points : List Point := []
  anchor_point : Option Point := none
  preview_actor : Bool := false
  slice : Int := 0
  orientation : Int := 2
  has_viewer : Bool := true
  mgr : ROIManager := {}
  cancelled_signals : Nat := 0
deriving Repr, DecidableEq

/-- `DrawingInteractorStyle._rect_pts`: the 4 corners of the square
spanned from the anchor towards the current point, with side
`min |dx| |dy|` and signs matching the drag direction. -/
def rect_pts (p1 p2 : Point) : List Point :=
  let x1 := p1.1
  let y1 := p1.2.1
  let z1 := p1.2.2
  let x2 := p2.1
  let y2 := p2.2.1
  let s := min |x2 - x1| |y2 - y1|
  let cx := if x2 ≥ x1 then s else -s
  let cy := if y2 ≥ y1 then s else -s
  [(x1, y1, z1), (x1 + cx, y1, z1), (x1 + cx, y1 + cy, z1), (x1, y1 + cy, z1)]

/-- `DrawingInteractorStyle._update_preview`: without a viewer, nothing
happens; with fewer than two preview points the old `preview_actor`
field is left as it was; otherwise a fresh preview actor is installed.
(The polygon tool passes the pointer position as `extra`.) -/
def update_preview (st : DrawingInteractorStyle) (extra : Option Point := none) :
    DrawingInteractorStyle :=
  if !st.has_viewer then st
  else
    let pts := st.current_points ++ extra.toList
    if pts.length < 2 then st
    else { st with preview_actor := true }

/-- `DrawingInteractorStyle._remove_preview`: detach and drop the
preview actor when one exists and a viewer is attached. -/
def remove_preview (st : DrawingInteractorStyle) : DrawingInteractorStyle :=
  if st.preview_actor && st.has_viewer then { st with preview_actor := false }
  else st

/-- `DicomViewerWidget.finalize_roi` (`src/widgets/dicom_viewer.py`):
count the existing ROIs of the same type, then add a new ROI named
`"<Type> <count+1>"` through the store. -/
def finalize_roi (st : DrawingInteractorStyle) (roi_type : DrawTool)
    (points : List Point) (slice_index orientation : Int) :
    DrawingInteractorStyle :=
  if !st.has_viewer then st
  else
    let count :=
      (st.mgr.rois.filter fun kv => kv.2.roi_type == roi_type.value).length + 1
    let res := add_roi st.mgr (pyCapitalize roi_type.value ++ " " ++ toString count)
      roi_type.value slice_index orientation points none
    { st with mgr := res.2 }

/-- `DrawingInteractorStyle._finalize_draw`: remove the preview, commit
the accumulated points through `finalize_roi` when there are at least
two of them and a viewer is attached, then clear the draw session.
The active tool is left unchanged. -/
def finalize_draw (st : DrawingInteractorStyle) : DrawingInteractorStyle :=
  let st := remove_preview st
  let st :=
    if 2 ≤ st.current_points.length && st.has_viewer then
      finalize_roi st st.draw_tool st.current_points st.slice st.orientation
    else st
  { st with is_drawing := false, current_points := [], anchor_point := none }

/-- `DrawingInteractorStyle._cancel_drawing`: remove the preview, clear
the draw session, reset the tool to `NONE` and emit `drawing_cancelled`. -/
def cancel_drawing (st : DrawingInteractorStyle) : DrawingInteractorStyle :=
  let st := remove_preview st
  { st with is_drawing := false, current_points := [], anchor_point := none,
            draw_tool := .NONE, cancelled_signals := st.cancelled_signals + 1 }

/-- `DrawingInteractorStyle._delete_hovered_vertex`: on the selected ROI
(if any, and a viewer is attached) delete the vertex nearest the
pointer. The screen-space vertex pick `_find_nearest_vertex(roi, 15)`
depends on the external projector, so its result is a parameter. -/
def delete_hovered_vertex (st : DrawingInteractorStyle)
    (vertex_pick : Option Int) : DrawingInteractorStyle :=
  match selected_roi st.mgr with
  | none => st
  | some roi =>
    if !st.has_viewer then st
    else
      match vertex_pick with
      | none => st
      | some vidx => { st with mgr := (delete_vertex st.mgr roi.roi_id vidx true).2 }

/-- `DrawingInteractorStyle._right_press`: while drawing a polygon,
3 or more committed vertices finalize, fewer cancel; in edit mode the
hovered vertex is deleted; otherwise the event falls through to the
camera (no modelled state changes). -/
def right_press (st : DrawingInteractorStyle) (vertex_pick : Option Int) :
    DrawingInteractorStyle :=
  if st.draw_tool == .POLYGON && st.is_drawing then
    if 3 ≤ st.current_points.length then finalize_draw st
    else cancel_drawing st
  else if st.draw_tool == .EDIT then delete_hovered_vertex st vertex_pick
  else st

/-- `DrawingInteractorStyle._draw_left_press` with the picked world
point `w`: freehand starts a one-point session; polygon starts the
session on the first click and appends on later ones, then refreshes the
preview; rectangle/ellipse set the anchor and a one-point session. The
dispatcher only routes draw tools here; for `NONE`/`EDIT` the modelled
state is untouched. -/
def draw_left_press (st : DrawingInteractorStyle) (w : Point) :
    DrawingInteractorStyle :=
  match st.draw_tool with
  | .FREEHAND => { st with is_drawing := true, current_points := [w] }
  | .POLYGON =>
    let st :=
      if !st.is_drawing then { st with is_drawing := true, current_points := [w] }
      else { st with current_points := st.current_points ++ [w] }
    update_preview st
  | .RECTANGLE | .ELLIPSE =>
    { st with is_drawing := true, anchor_point := some w, current_points := [w] }
  | _ => st

/-- `DrawingInteractorStyle._draw_left_release` with the picked world
point `w`: freehand finalizes; rectangle/ellipse regenerate the shape
from anchor and `w` and finalize when `w` differs from the anchor,
otherwise cancel. The ellipse generator uses trigonometric functions
outside the rational plane, so it is a parameter `egen`. -/
def draw_left_release (st : DrawingInteractorStyle) (w : Point)
    (egen : Point → Point → List Point) : DrawingInteractorStyle :=
  if st.draw_tool == .FREEHAND && st.is_drawing then finalize_draw st
  else if (st.draw_tool == .RECTANGLE || st.draw_tool == .ELLIPSE)
      && st.is_drawing then
    match st.anchor_point with
    | some a =>
      if a ≠ w then
        let gen := if st.draw_tool == .RECTANGLE then rect_pts else egen
        finalize_draw { st with current_points := gen a w }
      else cancel_drawing st
    | none => cancel_drawing st
  else st

/-! ## Point-to-segment distance (`DrawingInteractorStyle._seg_dist`) -/

/-- The squared value under the final `math.hypot` of
`DrawingInteractorStyle._seg_dist`: squared distance from `P` to `A`
when the segment is shorter than the `1e-12` squared-length guard,
otherwise squared distance from `P` to `A + t·(B-A)` with the projection
parameter `t` clamped to `[0, 1]`. -/
def seg_dist_sq (px py ax ay bx0 by0 : ℚ) : ℚ :=
  let dx := bx0 - ax
  let dy := by0 - ay
  let l2 := dx * dx + dy * dy
  if l2 < 1 / 10 ^ 12 then (px - ax) * (px - ax) + (py - ay) * (py - ay)
  else
    let t := max 0 (min 1 (((px - ax) * dx + (py - ay) * dy) / l2))
    (px - (ax + t * dx)) * (px - (ax + t * dx))
      + (py - (ay + t * dy)) * (py - (ay + t * dy))

/-- `DrawingInteractorStyle._seg_dist` itself:
`math.hypot u v = Real.sqrt (u² + v²)`. -/
noncomputable def seg_dist (px py ax ay bx0 by0 : ℚ) : ℝ :=
  Real.sqrt ((seg_dist_sq px py ax ay bx0 by0 : ℚ) : ℝ)

/-- Euclidean distance between two rational plane points, as a real. -/
noncomputable def euclid_dist (p q : ℚ × ℚ) : ℝ :=
  Real.sqrt (((p.1 - q.1 : ℚ) : ℝ) ^ 2 + ((p.2 - q.2 : ℚ) : ℝ) ^ 2)

/-- The clamped projection of `P` onto the segment `AB`, written from
the spec: project onto the infinite line through `A` and `B`, clamp the
parameter to `[0, 1]`. -/
def seg_closest_point (p a b : ℚ × ℚ) : ℚ × ℚ :=
  let t := max 0 (min 1
    (((p.1 - a.1) * (b.1 - a.1) + (p.2 - a.2) * (b.2 - a.2))
      / ((b.1 - a.1) * (b.1 - a.1) + (b.2 - a.2) * (b.2 - a.2))))
  (a.1 + t * (b.1 - a.1), a.2 + t * (b.2 - a.2))

/-- The specification's description of the distance: Euclidean distance
from `P` to the clamped projection point, with the point-to-point
fallback for (near-)zero-length segments. -/
noncomputable def spec_seg_dist (p a b : ℚ × ℚ) : ℝ :=
  if (b.1 - a.1) * (b.1 - a.1) + (b.2 - a.2) * (b.2 - a.2) < 1 / 10 ^ 12 then
    euclid_dist p a
  else euclid_dist p (seg_closest_point p a b)

/-! ## Derived predicates and concrete states used by the theorems -/

/-- The ROI Store invariant claimed by the spec: the selected id, when
non-null, refers to a Region present in the mapping. -/
def SelectedLive (m : ROIManager) : Prop :=
  ∀ i, m.selected_id = some i → (assocGet m.rois i).isSome = true

/-- A store holding one freshly added triangle ROI (id 1). -/
def c1roiAdd : ROI × ROIManager :=
  add_roi {} "Polygon 1" "polygon" 0 2 [(0, 0, 0), (1, 0, 0), (0, 1, 0)]
    (some (1, 0, 0))

/-- The store of `c1roiAdd`. -/
def c1m : ROIManager := c1roiAdd.2

/-- The ROI of `c1roiAdd`. -/
def c1roi : ROI := c1roiAdd.1

/-- A store holding one freshly added four-point ROI (id 1). -/
def c4roiAdd : ROI × ROIManager :=
  add_roi {} "Rectangle 1" "rectangle" 0 2
    [(0, 0, 0), (4, 0, 0), (4, 4, 0), (0, 4, 0)] (some (1, 0, 0))

/-- An in-progress polygon draw session with three committed clicks, as
in the spec scenario. -/
def polyState3 : DrawingInteractorStyle :=
  draw_left_press
    (draw_left_press (draw_left_press { draw_tool := .POLYGON } (0, 0, 0))
      (5, 0, 0))
    (5, 5, 0)

/-- An in-progress polygon draw session with two committed clicks. -/
def polyState2 : DrawingInteractorStyle :=
  draw_left_press (draw_left_press { draw_tool := .POLYGON } (0, 0, 0)) (5, 0, 0)

/-- An in-progress rectangle draw session anchored at the origin. -/
def rectState : DrawingInteractorStyle :=
  draw_left_press { draw_tool := .RECTANGLE } (0, 0, 0)

/-! ## Helper lemmas on the dict model -/

theorem assocGet_assocSet {α : Type} (l : List (Nat × α)) (k i : Nat) (v : α) :
    assocGet (assocSet l k v) i = if i = k then some v else assocGet l i := by
  induction l with
  | nil =>
    by_cases h : i = k
    · subst h; simp [assocSet, assocGet]
    · simp [assocSet, assocGet, h, Ne.symm h]
  | cons hd tl ih =>
    obtain ⟨k0, v0⟩ := hd
    by_cases hk : k0 = k
    · subst hk
      by_cases hi : k0 = i
      · subst hi; simp [assocSet, assocGet]
      · simp [assocSet, assocGet, hi, Ne.symm hi]
    · by_cases hi : k0 = i
      · subst hi
        simp [assocSet, assocGet, hk]
      · simp [assocSet, assocGet, hk, hi, ih]

theorem isSome_assocGet_assocSet {α : Type} (l : List (Nat × α)) (k i : Nat)
    (v : α) (h : (assocGet l i).isSome = true) :
    (assocGet (assocSet l k v) i).isSome = true := by
  rw [assocGet_assocSet]
  by_cases hik : i = k <;> simp [hik, h]

theorem assocGet_assocPop_ne {α : Type} (l : List (Nat × α)) (k i : Nat)
    (h : i ≠ k) : assocGet (assocPop l k).2 i = assocGet l i := by
  induction l with
  | nil => simp [assocPop]
  | cons hd tl ih =>
    obtain ⟨k0, v0⟩ := hd
    by_cases hk : k0 = k
    · subst hk
      have hki := Ne.symm h
      simp [assocPop, assocGet, hki]
    · by_cases hi : k0 = i <;> simp [assocPop, assocGet, hk, hi, ih, h]

theorem assocGet_keyMap {α β : Type} (g : Nat × α → β) (l : List (Nat × α))
    (i : Nat) :
    assocGet (l.map fun kv => (kv.1, g kv)) i
      = (assocGet l i).map fun v => g (i, v) := by
  induction l with
  | nil => simp [assocGet]
  | cons hd tl ih =>
    obtain ⟨k0, v0⟩ := hd
    by_cases hi : k0 = i
    · subst hi
      simp [assocGet]
    · simp [assocGet, hi, ih]

/-! ## Helper lemmas on the store operations -/

theorem rebuilt_roi_points (m : ROIManager) (roi : ROI) (r : Bool) :
    (rebuilt_roi m roi r).points = roi.points := by
  simp only [rebuilt_roi]
  split_ifs <;> rfl

theorem rebuilt_roi_id (m : ROIManager) (roi : ROI) (r : Bool) :
    (rebuilt_roi m roi r).roi_id = roi.roi_id := by
  simp only [rebuilt_roi]
  split_ifs <;> rfl

theorem select_prev_selected_id (m : ROIManager) (r : Bool) :
    (select_prev m r).selected_id = m.selected_id := by
  unfold select_prev
  split
  · rfl
  · split <;> rfl

theorem select_cur_selected_id (m : ROIManager) (oid : Option Nat) :
    (select_cur m oid).selected_id = m.selected_id := by
  unfold select_cur
  split
  · rfl
  · split <;> rfl

theorem select_selected_id (m : ROIManager) (oid : Option Nat) (r : Bool) :
    (select m oid r).selected_id = oid := by
  simp [select, emit, select_cur_selected_id]

theorem select_prev_isSome (m : ROIManager) (r : Bool) (i : Nat)
    (h : (assocGet m.rois i).isSome = true) :
    (assocGet (select_prev m r).rois i).isSome = true := by
  unfold select_prev
  split
  · exact h
  · split
    · exact h
    · exact isSome_assocGet_assocSet _ _ _ _ h

theorem select_cur_isSome (m : ROIManager) (oid : Option Nat) (i : Nat)
    (h : (assocGet m.rois i).isSome = true) :
    (assocGet (select_cur m oid).rois i).isSome = true := by
  unfold select_cur
  split
  · exact h
  · split
    · exact h
    · exact isSome_assocGet_assocSet _ _ _ _ h

theorem select_cur_target_isSome (m : ROIManager) (i : Nat)
    (h : (assocGet m.rois i).isSome = true) :
    (assocGet (select_cur m (some i)).rois i).isSome = true := by
  unfold select_cur
  obtain ⟨cur, hc⟩ := Option.isSome_iff_exists.mp h
  simp only [hc]
  rw [assocGet_assocSet]
  simp

/-! ## Properties of Python list-insert semantics -/

theorem pyInsert_length {α : Type} (xs : List α) (i : Int) (x : α) :
    (pyInsert xs i x).length = xs.length + 1 := by
  unfold pyInsert
  split_ifs with h <;> simp [List.length_take, List.length_drop] <;> omega

theorem pyInsert_append {α : Type} (xs : List α) (i : Int) (x : α)
    (h : (xs.length : Int) ≤ i) : pyInsert xs i x = xs ++ [x] := by
  have h0 : ¬ i < 0 := by omega
  have hm : min i (xs.length : Int) = (xs.length : Int) := by omega
  simp [pyInsert, h0, hm]

theorem pyInsert_prepend {α : Type} (xs : List α) (i : Int) (x : α)
    (h : i ≤ -(xs.length : Int)) : pyInsert xs i x = x :: xs := by
  by_cases h0 : i < 0
  · have hm : max (i + xs.length) 0 = 0 := by omega
    simp [pyInsert, h0, hm]
  · have hn : xs = [] := by
      have hz : (xs.length : Int) = 0 := by omega
      exact List.length_eq_zero.mp (by exact_mod_cast hz)
    subst hn
    simp [pyInsert, h0]

/-! ## One vertex operation keeps every ROI's point count above the
bound `min 3 (initial count)` -/

theorem insert_vertex_get (m : ROIManager) (j : Nat) (e : Int) (p : Point)
    (r : Bool) (i : Nat) (roi : ROI) (h : assocGet m.rois i = some roi) :
    ∃ roi', assocGet (insert_vertex m j e p r).rois i = some roi' ∧
      (i = j → roi'.points = pyInsert roi.points (e + 1) p) ∧
      (i ≠ j → roi' = roi) := by
  cases hj : assocGet m.rois j with
  | none =>
    refine ⟨roi, ?_, ?_, fun _ => rfl⟩
    · simp only [insert_vertex, hj]
      exact h
    · intro hij
      subst hij
      rw [h] at hj
      cases hj
  | some rj =>
    by_cases hij : i = j
    · subst hij
      rw [h] at hj
      injection hj with hh
      subst hh
      refine ⟨rebuilt_roi m { roi with points := pyInsert roi.points (e + 1) p } r,
        ?_, ?_, fun hne => absurd rfl hne⟩
      · simp [insert_vertex, h, emit, rebuild_visuals, assocGet_assocSet]
      · intro
        rw [rebuilt_roi_points]
    · refine ⟨roi, ?_, fun hij2 => absurd hij2 hij, fun _ => rfl⟩
      simp [insert_vertex, hj, emit, rebuild_visuals, assocGet_assocSet, hij, h]

theorem delete_vertex_get (m : ROIManager) (j : Nat) (v : Int) (r : Bool)
    (i : Nat) (roi : ROI) (h : assocGet m.rois i = some roi) :
    ∃ roi', assocGet (delete_vertex m j v r).2.rois i = some roi' ∧
      min 3 roi.points.length ≤ roi'.points.length := by
  cases hj : assocGet m.rois j with
  | none =>
    refine ⟨roi, ?_, Nat.min_le_right _ _⟩
    simp only [delete_vertex, hj]
    exact h
  | some rj =>
    by_cases h3 : rj.points.length ≤ 3
    · refine ⟨roi, ?_, Nat.min_le_right _ _⟩
      simp only [delete_vertex, hj, if_pos h3]
      exact h
    · by_cases hr : v < 0 ∨ (rj.points.length : Int) ≤ v
      · refine ⟨roi, ?_, Nat.min_le_right _ _⟩
        simp only [delete_vertex, hj, if_neg h3, if_pos hr]
        exact h
      · by_cases hij : i = j
        · subst hij
          rw [h] at hj
          injection hj with hh
          subst hh
          refine ⟨rebuilt_roi m { roi with points := roi.points.eraseIdx v.toNat } r,
            ?_, ?_⟩
          · simp [delete_vertex, h, if_neg h3, if_neg hr, emit, rebuild_visuals,
              assocGet_assocSet]
          · rw [rebuilt_roi_points]
            have hlt : v.toNat < roi.points.length := by omega
            have hlen := List.length_eraseIdx_of_lt hlt
            simp only [hlen]
            omega
        · refine ⟨roi, ?_, Nat.min_le_right _ _⟩
          simp [delete_vertex, hj, if_neg h3, if_neg hr, emit, rebuild_visuals,
            assocGet_assocSet, hij, h]

theorem applyVertexOp_get (m : ROIManager) (op : VertexOp) (i : Nat)
    (roi : ROI) (h : assocGet m.rois i = some roi) :
    ∃ roi', assocGet (applyVertexOp m op).rois i = some roi' ∧
      min 3 roi.points.length ≤ roi'.points.length := by
  cases op with
  | ins j e p =>
    obtain ⟨roi', hg, hins, hne⟩ := insert_vertex_get m j e p true i roi h
    refine ⟨roi', hg, ?_⟩
    by_cases hij : i = j
    · rw [hins hij, pyInsert_length]
      omega
    · rw [hne hij]
      exact Nat.min_le_right _ _
  | del j v => exact delete_vertex_get m j v true i roi h

/-! ## C1 -/

/-- **C1**: after any sequence of `insert_vertex` / `delete_vertex`
operations, every ROI still present has at least `min 3 (initial count)`
points; in particular a ROI that starts with at least 3 points never
drops below 3 (insertion always adds one point, deletion refuses at 3 or
fewer). -/
theorem c1_point_count_invariant :
    ∀ (ops : List VertexOp) (m : ROIManager) (i : Nat) (roi roi' : ROI),
      assocGet m.rois i = some roi →
      assocGet (applyVertexOps m ops).rois i = some roi' →
      min 3 roi.points.length ≤ roi'.points.length ∧
      (3 ≤ roi.points.length → 3 ≤ roi'.points.length) := by
  intro ops
  induction ops with
  | nil =>
    intro m i roi roi' h h'
    simp only [applyVertexOps, List.foldl_nil] at h'
    rw [h] at h'
    injection h' with hh
    subst hh
    exact ⟨Nat.min_le_right _ _, fun h3 => h3⟩
  | cons op ops ih =>
    intro m i roi roi' h h'
    simp only [applyVertexOps, List.foldl_cons] at h'
    obtain ⟨roi1, h1, hb⟩ := applyVertexOp_get m op i roi h
    obtain ⟨hmin, _⟩ := ih (applyVertexOp m op) i roi1 roi' h1 h'
    exact ⟨by omega, fun h3 => by omega⟩

/-- Witness for C1 at the concrete one-triangle store: a refused
deletion on a 3-point ROI leaves the count at 3. -/
theorem c1_point_count_invariant_witness :
    min 3 c1roi.points.length ≤ c1roi.points.length ∧
    (3 ≤ c1roi.points.length → 3 ≤ c1roi.points.length) :=
  c1_point_count_invariant [VertexOp.del 1 0] c1m 1 c1roi c1roi (by rfl) (by rfl)

/-! ## C2 -/

theorem selectedLive_of (m m' : ROIManager)
    (hsel : m'.selected_id = m.selected_id)
    (hget : ∀ i, (assocGet m.rois i).isSome = true →
      (assocGet m'.rois i).isSome = true)
    (h : SelectedLive m) : SelectedLive m' := by
  intro i hi
  exact hget i (h i (hsel ▸ hi))

theorem add_roi_selectedLive (m : ROIManager) (n t : String) (s o : Int)
    (pts : List Point) (c : Option Color) (h : SelectedLive m) :
    SelectedLive (add_roi m n t s o pts c).2 := by
  refine selectedLive_of m _ ?_ ?_ h
  · cases c <;> simp [add_roi, next_color, emit]
  · intro i hi
    cases c <;> simp only [add_roi, next_color, emit] <;>
      exact isSome_assocGet_assocSet _ _ _ _ hi

theorem select_none_selectedLive (m : ROIManager) (r : Bool) :
    SelectedLive (select m none r) := by
  intro i hi
  rw [select_selected_id] at hi
  cases hi

theorem select_live_selectedLive (m : ROIManager) (i : Nat) (r : Bool)
    (h : (assocGet m.rois i).isSome = true) :
    SelectedLive (select m (some i) r) := by
  intro i' hi'
  rw [select_selected_id] at hi'
  injection hi' with hii
  subst hii
  simp only [select, emit]
  exact select_cur_target_isSome _ i (select_prev_isSome m r i h)

theorem remove_roi_deselects (m : ROIManager) (id : Nat) (r : Bool)
    (h : m.selected_id = some id) : (remove_roi m id r).selected_id = none := by
  simp only [remove_roi, if_pos h]
  cases hp : (assocPop (select m none r).rois id).1 <;>
    simp [hp, emit, select_selected_id]

theorem remove_roi_selectedLive (m : ROIManager) (id : Nat) (r : Bool)
    (h : SelectedLive m) : SelectedLive (remove_roi m id r) := by
  by_cases hsel : m.selected_id = some id
  · intro i hi
    rw [remove_roi_deselects m id r hsel] at hi
    cases hi
  · intro i hi
    simp only [remove_roi, if_neg hsel] at hi ⊢
    cases hp : (assocPop m.rois id).1 with
    | none =>
      simp only [hp] at hi ⊢
      exact h i hi
    | some roi =>
      simp only [hp, emit] at hi ⊢
      have hii : m.selected_id = some i := hi
      have hne : i ≠ id := by
        intro hh
        subst hh
        exact hsel hii
      rw [assocGet_assocPop_ne _ _ _ hne]
      exact h i hii

theorem clear_selectedLive (m : ROIManager) (r : Bool) :
    SelectedLive (clear m r) := by
  intro i hi
  simp only [clear, emit, select_selected_id] at hi
  cases hi

theorem rename_roi_selectedLive (m : ROIManager) (id : Nat) (n : String)
    (h : SelectedLive m) : SelectedLive (rename_roi m id n) := by
  cases hr : assocGet m.rois id with
  | none => simpa [rename_roi, hr] using h
  | some roi =>
    refine selectedLive_of m _ ?_ ?_ h
    · simp [rename_roi, hr, emit]
    · intro i hi
      simp only [rename_roi, hr, emit]
      exact isSome_assocGet_assocSet _ _ _ _ hi

theorem update_point_selectedLive (m : ROIManager) (id : Nat) (vi : Int)
    (w : Point) (r : Bool) (h : SelectedLive m) :
    SelectedLive (update_point m id vi w r) := by
  cases hr : assocGet m.rois id with
  | none => simpa [update_point, hr] using h
  | some roi =>
    refine selectedLive_of m _ ?_ ?_ h <;>
      simp only [update_point, hr]
    · split <;> rfl
    · intro i hi
      split
      · exact hi
      · exact isSome_assocGet_assocSet _ _ _ _ hi

theorem translate_roi_selectedLive (m : ROIManager) (id : Nat)
    (dx dy dz : ℚ) (r : Bool) (h : SelectedLive m) :
    SelectedLive (translate_roi m id dx dy dz r) := by
  cases hr : assocGet m.rois id with
  | none => simpa [translate_roi, hr] using h
  | some roi =>
    refine selectedLive_of m _ ?_ ?_ h <;> simp only [translate_roi, hr]
    · rfl
    · intro i hi
      exact isSome_assocGet_assocSet _ _ _ _ hi

theorem insert_vertex_selectedLive (m : ROIManager) (id : Nat) (e : Int)
    (p : Point) (r : Bool) (h : SelectedLive m) :
    SelectedLive (insert_vertex m id e p r) := by
  cases hr : assocGet m.rois id with
  | none => simpa [insert_vertex, hr] using h
  | some roi =>
    refine selectedLive_of m _ ?_ ?_ h
    · simp [insert_vertex, hr, emit, rebuild_visuals]
    · intro i hi
      simp only [insert_vertex, hr, emit, rebuild_visuals]
      exact isSome_assocGet_assocSet _ _ _ _ hi

theorem delete_vertex_selectedLive (m : ROIManager) (id : Nat) (vi : Int)
    (r : Bool) (h : SelectedLive m) :
    SelectedLive (delete_vertex m id vi r).2 := by
  cases hr : assocGet m.rois id with
  | none => simpa [delete_vertex, hr] using h
  | some roi =>
    by_cases h3 : roi.points.length ≤ 3
    · simpa [delete_vertex, hr, h3] using h
    · by_cases hb : vi < 0 ∨ (roi.points.length : Int) ≤ vi
      · simpa [delete_vertex, hr, if_neg h3, if_pos hb] using h
      · refine selectedLive_of m _ ?_ ?_ h
        · simp [delete_vertex, hr, if_neg h3, if_neg hb, emit, rebuild_visuals]
        · intro i hi
          simp only [delete_vertex, hr, if_neg h3, if_neg hb, emit,
            rebuild_visuals]
          exact isSome_assocGet_assocSet _ _ _ _ hi

theorem update_visibility_get (m : ROIManager) (cs co : Int) (i : Nat) :
    assocGet (update_visibility m cs co).rois i
      = (assocGet m.rois i).map (vis_roi m.selected_id cs co) := by
  simp only [update_visibility]
  rw [assocGet_keyMap (fun kv => vis_roi m.selected_id cs co kv.2)]

theorem update_visibility_selectedLive (m : ROIManager) (cs co : Int)
    (h : SelectedLive m) : SelectedLive (update_visibility m cs co) := by
  refine selectedLive_of m _ rfl ?_ h
  intro i hi
  rw [update_visibility_get]
  simpa using hi

/-- **C2 counterexample**: `select` on a fresh (empty) store with the
absent id 5 records 5 as the selected id even though no Region with id 5
exists, so a non-null selected id can dangle — `select` with an absent
id is not a deselect/no-op. -/
theorem c2_select_absent_counterexample :
    (select ({} : ROIManager) (some 5) true).selected_id = some 5 ∧
    assocGet (select ({} : ROIManager) (some 5) true).rois 5 = none :=
  ⟨rfl, rfl⟩

/-- **C2 (amended)**: the liveness of the selected id is preserved by
`add_roi`, `remove_roi` (which deselects before erasing the selected
id), `clear`, `rename_roi`, `update_point`, `translate_roi`,
`insert_vertex`, `delete_vertex` and `update_visibility`, and by
`select` when called with null or with a live id; but `select` with an
absent non-null id records that id as selected (the claim's "absent id
acts as deselect / never leaves a dangling id" fails, see the
counterexample). -/
theorem c2_selected_live_amended :
    (∀ (m : ROIManager) (n t : String) (s o : Int) (pts : List Point)
        (c : Option Color), SelectedLive m →
        SelectedLive (add_roi m n t s o pts c).2) ∧
    (∀ (m : ROIManager) (id : Nat) (r : Bool), SelectedLive m →
        SelectedLive (remove_roi m id r)) ∧
    (∀ (m : ROIManager) (id : Nat) (r : Bool), m.selected_id = some id →
        (remove_roi m id r).selected_id = none) ∧
    (∀ (m : ROIManager) (r : Bool), SelectedLive (select m none r)) ∧
    (∀ (m : ROIManager) (i : Nat) (r : Bool),
        (assocGet m.rois i).isSome = true →
        SelectedLive (select m (some i) r)) ∧
    (∀ (m : ROIManager) (r : Bool), SelectedLive (clear m r)) ∧
    (∀ (m : ROIManager) (id : Nat) (n : String), SelectedLive m →
        SelectedLive (rename_roi m id n)) ∧
    (∀ (m : ROIManager) (id : Nat) (vi : Int) (w : Point) (r : Bool),
        SelectedLive m → SelectedLive (update_point m id vi w r)) ∧
    (∀ (m : ROIManager) (id : Nat) (dx dy dz : ℚ) (r : Bool),
        SelectedLive m → SelectedLive (translate_roi m id dx dy dz r)) ∧
    (∀ (m : ROIManager) (id : Nat) (e : Int) (p : Point) (r : Bool),
        SelectedLive m → SelectedLive (insert_vertex m id e p r)) ∧
    (∀ (m : ROIManager) (id : Nat) (vi : Int) (r : Bool), SelectedLive m →
        SelectedLive (delete_vertex m id vi r).2) ∧
    (∀ (m : ROIManager) (cs co : Int), SelectedLive m →
        SelectedLive (update_visibility m cs co)) :=
  ⟨add_roi_selectedLive, remove_roi_selectedLive, remove_roi_deselects,
   select_none_selectedLive, select_live_selectedLive, clear_selectedLive,
   rename_roi_selectedLive, update_point_selectedLive,
   translate_roi_selectedLive, insert_vertex_selectedLive,
   delete_vertex_selectedLive, update_visibility_selectedLive⟩

/-- Witness for C2 at the concrete one-ROI store: selecting the live
id 1 yields a live selection. -/
theorem c2_selected_live_amended_witness :
    SelectedLive (select c1m (some 1) true) :=
  c2_selected_live_amended.2.2.2.2.1 c1m 1 true (by rfl)

/-! ## C3 -/

theorem rebuilt_roi_actor_isSome (m : ROIManager) (roi : ROI) (r : Bool) :
    (rebuilt_roi m roi r).actor.isSome = true := by
  simp only [rebuilt_roi]
  split_ifs <;> simp

/-- **C3**: `delete_vertex` returns `false` with the store untouched for
an absent id, a ROI with at most 3 points, or an out-of-range index;
otherwise it returns `true`, removes exactly the indexed point, holds a
freshly rebuilt contour renderable, leaves every other ROI alone and
emits exactly one `rois_changed`. It is a total function (never
raises). -/
theorem c3_delete_vertex_contract :
    ∀ (m : ROIManager) (id : Nat) (idx : Int) (r : Bool),
      (assocGet m.rois id = none → delete_vertex m id idx r = (false, m)) ∧
      (∀ roi, assocGet m.rois id = some roi →
        ((roi.points.length ≤ 3 ∨ idx < 0 ∨ (roi.points.length : Int) ≤ idx) →
          delete_vertex m id idx r = (false, m)) ∧
        (3 < roi.points.length → 0 ≤ idx → idx < (roi.points.length : Int) →
          (delete_vertex m id idx r).1 = true ∧
          (∃ roi', assocGet (delete_vertex m id idx r).2.rois id = some roi' ∧
            roi'.points = roi.points.eraseIdx idx.toNat ∧
            roi'.points.length + 1 = roi.points.length ∧
            roi'.actor.isSome = true) ∧
          (∀ j, j ≠ id →
            assocGet (delete_vertex m id idx r).2.rois j = assocGet m.rois j) ∧
          (delete_vertex m id idx r).2.events
            = m.events ++ [Event.roisChanged])) := by
  intro m id idx r
  constructor
  · intro h
    simp [delete_vertex, h]
  · intro roi hr
    constructor
    · intro href
      by_cases h3 : roi.points.length ≤ 3
      · simp only [delete_vertex, hr, if_pos h3]
      · have hb : idx < 0 ∨ (roi.points.length : Int) ≤ idx := by
          rcases href with h | h | h
          · omega
          · exact Or.inl h
          · exact Or.inr h
        simp only [delete_vertex, hr, if_neg h3, if_pos hb]
    · intro h3 h0 hlen
      have h3' : ¬ roi.points.length ≤ 3 := by omega
      have hb : ¬ (idx < 0 ∨ (roi.points.length : Int) ≤ idx) := by omega
      refine ⟨?_, ⟨rebuilt_roi m { roi with points := roi.points.eraseIdx idx.toNat } r,
        ?_, ?_, ?_, ?_⟩, ?_, ?_⟩
      · simp [delete_vertex, hr, if_neg h3', if_neg hb]
      · simp [delete_vertex, hr, if_neg h3', if_neg hb, emit, rebuild_visuals,
          assocGet_assocSet]
      · rw [rebuilt_roi_points]
      · rw [rebuilt_roi_points]
        show (roi.points.eraseIdx idx.toNat).length + 1 = roi.points.length
        have hl := List.length_eraseIdx_of_lt
          (show idx.toNat < roi.points.length by omega)
        omega
      · exact rebuilt_roi_actor_isSome _ _ _
      · intro j hj
        simp [delete_vertex, hr, if_neg h3', if_neg hb, emit, rebuild_visuals,
          assocGet_assocSet, hj]
      · simp [delete_vertex, hr, if_neg h3', if_neg hb, emit, rebuild_visuals]

/-- Witness for C3: on the concrete store with one 3-point ROI, deleting
a vertex is refused and the store is left exactly as it was (the spec's
3-point scenario). -/
theorem c3_delete_vertex_contract_witness :
    delete_vertex c1m 1 0 true = (false, c1m) :=
  ((c3_delete_vertex_contract c1m 1 0 true).2 c1roi (by rfl)).1
    (Or.inl (by decide))

/-! ## C4 -/

theorem pyListToTriple_tripleToPyList (p : ℚ × ℚ × ℚ) :
    pyListToTriple (tripleToPyList p) = some p := rfl

theorem mapM_loop_pyListToTriple (l acc : List Point) :
    List.mapM.loop pyListToTriple (l.map tripleToPyList) acc
      = some (acc.reverse ++ l) := by
  induction l generalizing acc with
  | nil => simp [List.mapM.loop]
  | cons p tl ih =>
    simp [List.mapM.loop, pyListToTriple_tripleToPyList, ih]

theorem mapM_pyListToTriple (l : List Point) :
    (l.map tripleToPyList).mapM pyListToTriple = some l := by
  have h := mapM_loop_pyListToTriple l []
  simpa [List.mapM] using h

theorem add_roi_spec (m : ROIManager) (n t : String) (s o : Int)
    (pts : List Point) (c : Option Color) :
    (add_roi m n t s o pts c).1.name = n ∧
    (add_roi m n t s o pts c).1.roi_type = t ∧
    (add_roi m n t s o pts c).1.slice_index = s ∧
    (add_roi m n t s o pts c).1.orientation = o ∧
    (add_roi m n t s o pts c).1.points = pts ∧
    (∀ c0, c = some c0 → (add_roi m n t s o pts c).1.color = c0) ∧
    (add_roi m n t s o pts c).1.roi_id = m.next_id ∧
    (add_roi m n t s o pts c).2.next_id = m.next_id + 1 ∧
    assocGet (add_roi m n t s o pts c).2.rois m.next_id
      = some (add_roi m n t s o pts c).1 := by
  cases c <;> simp [add_roi, next_color, emit, assocGet_assocSet]

/-- **C4**: serialising a ROI to the
`{name, roi_type, slice_index, orientation, points, color}` dict and
deserialising it reproduces exactly the add-arguments with the same six
fields, and re-adding them through `add_roi` yields a ROI equal to the
original in all six fields while `roi_id` is taken freshly from the
store's monotonic counter. -/
theorem c4_serialise_roundtrip :
    ∀ (roi : ROI) (m : ROIManager),
      deserialise_roi (serialise_roi roi) = some
        { name := roi.name, roi_type := roi.roi_type,
          slice_index := roi.slice_index, orientation := roi.orientation,
          points := roi.points, color := roi.color } ∧
      ((add_roi m roi.name roi.roi_type roi.slice_index roi.orientation
          roi.points (some roi.color)).1.name = roi.name ∧
       (add_roi m roi.name roi.roi_type roi.slice_index roi.orientation
          roi.points (some roi.color)).1.roi_type = roi.roi_type ∧
       (add_roi m roi.name roi.roi_type roi.slice_index roi.orientation
          roi.points (some roi.color)).1.slice_index = roi.slice_index ∧
       (add_roi m roi.name roi.roi_type roi.slice_index roi.orientation
          roi.points (some roi.color)).1.orientation = roi.orientation ∧
       (add_roi m roi.name roi.roi_type roi.slice_index roi.orientation
          roi.points (some roi.color)).1.points = roi.points ∧
       (add_roi m roi.name roi.roi_type roi.slice_index roi.orientation
          roi.points (some roi.color)).1.color = roi.color) ∧
      (add_roi m roi.name roi.roi_type roi.slice_index roi.orientation
          roi.points (some roi.color)).1.roi_id = m.next_id ∧
      (add_roi m roi.name roi.roi_type roi.slice_index roi.orientation
          roi.points (some roi.color)).2.next_id = m.next_id + 1 ∧
      assocGet (add_roi m roi.name roi.roi_type roi.slice_index
          roi.orientation roi.points (some roi.color)).2.rois m.next_id
        = some (add_roi m roi.name roi.roi_type roi.slice_index
            roi.orientation roi.points (some roi.color)).1 := by
  intro roi m
  obtain ⟨h1, h2, h3, h4, h5, h6, h7, h8, h9⟩ :=
    add_roi_spec m roi.name roi.roi_type roi.slice_index roi.orientation
      roi.points (some roi.color)
  refine ⟨?_, ⟨h1, h2, h3, h4, h5, h6 roi.color rfl⟩, h7, h8, h9⟩
  simp [deserialise_roi, serialise_roi, mapM_loop_pyListToTriple,
    pyListToTriple_tripleToPyList]

/-! ## Controller helper lemmas -/

theorem remove_preview_mgr (st : DrawingInteractorStyle) :
    (remove_preview st).mgr = st.mgr := by
  simp only [remove_preview]
  split <;> rfl

theorem remove_preview_current_points (st : DrawingInteractorStyle) :
    (remove_preview st).current_points = st.current_points := by
  simp only [remove_preview]
  split <;> rfl

theorem remove_preview_draw_tool (st : DrawingInteractorStyle) :
    (remove_preview st).draw_tool = st.draw_tool := by
  simp only [remove_preview]
  split <;> rfl

theorem remove_preview_has_viewer (st : DrawingInteractorStyle) :
    (remove_preview st).has_viewer = st.has_viewer := by
  simp only [remove_preview]
  split <;> rfl

theorem remove_preview_cancelled (st : DrawingInteractorStyle) :
    (remove_preview st).cancelled_signals = st.cancelled_signals := by
  simp only [remove_preview]
  split <;> rfl

theorem remove_preview_preview (st : DrawingInteractorStyle)
    (hv : st.has_viewer = true) : (remove_preview st).preview_actor = false := by
  cases hp : st.preview_actor <;> simp [remove_preview, hp, hv]

theorem finalize_draw_draw_tool (st : DrawingInteractorStyle) :
    (finalize_draw st).draw_tool = st.draw_tool := by
  simp only [finalize_draw, finalize_roi]
  split
  · split
    · exact remove_preview_draw_tool st
    · exact remove_preview_draw_tool st
  · exact remove_preview_draw_tool st

theorem finalize_draw_cancelled (st : DrawingInteractorStyle) :
    (finalize_draw st).cancelled_signals = st.cancelled_signals := by
  simp only [finalize_draw, finalize_roi]
  split
  · split
    · exact remove_preview_cancelled st
    · exact remove_preview_cancelled st
  · exact remove_preview_cancelled st

theorem finalize_draw_preview (st : DrawingInteractorStyle)
    (hv : st.has_viewer = true) : (finalize_draw st).preview_actor = false := by
  simp only [finalize_draw, finalize_roi]
  split
  · split
    · exact remove_preview_preview st hv
    · exact remove_preview_preview st hv
  · exact remove_preview_preview st hv

theorem finalize_draw_commits (st : DrawingInteractorStyle)
    (hv : st.has_viewer = true) (hlen : 2 ≤ st.current_points.length) :
    (finalize_draw st).mgr
      = (add_roi st.mgr
          (pyCapitalize st.draw_tool.value ++ " " ++
            toString ((st.mgr.rois.filter
              fun kv => kv.2.roi_type == st.draw_tool.value).length + 1))
          st.draw_tool.value st.slice st.orientation st.current_points none).2 := by
  cases hp : st.preview_actor <;>
    simp [finalize_draw, remove_preview, finalize_roi, hp, hv, hlen]

theorem cancel_drawing_mgr (st : DrawingInteractorStyle) :
    (cancel_drawing st).mgr = st.mgr := by
  simp only [cancel_drawing]
  exact remove_preview_mgr st

theorem cancel_drawing_cancelled (st : DrawingInteractorStyle) :
    (cancel_drawing st).cancelled_signals = st.cancelled_signals + 1 := by
  simp only [cancel_drawing]
  rw [remove_preview_cancelled]

theorem cancel_drawing_preview (st : DrawingInteractorStyle)
    (hv : st.has_viewer = true) : (cancel_drawing st).preview_actor = false := by
  simp only [cancel_drawing]
  exact remove_preview_preview st hv

/-! ## C5 -/

/-- **C5**: the rectangle generator returns exactly the 4 corners
`(x1,y1,z1), (x1+cx,y1,z1), (x1+cx,y1+cy,z1), (x1,y1+cy,z1)` of the
square with side `s = min |x2-x1| |y2-y1|` signed by the drag direction;
the spec scenario anchor `(0,0,0)` → release `(4,6,0)` gives the square
clamped to side 4; and a rectangle-session release commits the generated
points as a new Region exactly when the release pick differs from the
anchor, cancelling otherwise. -/
theorem c5_rectangle_generator :
    (∀ p1 p2 : Point, rect_pts p1 p2 =
      [(p1.1, p1.2.1, p1.2.2),
       (p1.1 + (if p1.1 ≤ p2.1 then min |p2.1 - p1.1| |p2.2.1 - p1.2.1|
                else -min |p2.1 - p1.1| |p2.2.1 - p1.2.1|), p1.2.1, p1.2.2),
       (p1.1 + (if p1.1 ≤ p2.1 then min |p2.1 - p1.1| |p2.2.1 - p1.2.1|
                else -min |p2.1 - p1.1| |p2.2.1 - p1.2.1|),
        p1.2.1 + (if p1.2.1 ≤ p2.2.1 then min |p2.1 - p1.1| |p2.2.1 - p1.2.1|
                else -min |p2.1 - p1.1| |p2.2.1 - p1.2.1|), p1.2.2),
       (p1.1,
        p1.2.1 + (if p1.2.1 ≤ p2.2.1 then min |p2.1 - p1.1| |p2.2.1 - p1.2.1|
                else -min |p2.1 - p1.1| |p2.2.1 - p1.2.1|), p1.2.2)]) ∧
    rect_pts (0, 0, 0) (4, 6, 0)
      = [(0, 0, 0), (4, 0, 0), (4, 4, 0), (0, 4, 0)] ∧
    (∀ (st : DrawingInteractorStyle) (a w : Point)
        (egen : Point → Point → List Point),
      st.draw_tool = DrawTool.RECTANGLE → st.is_drawing = true →
      st.anchor_point = some a →
      (a ≠ w → draw_left_release st w egen
          = finalize_draw { st with current_points := rect_pts a w }) ∧
      (a ≠ w → st.has_viewer = true →
        ∃ roi', assocGet (draw_left_release st w egen).mgr.rois
              st.mgr.next_id = some roi' ∧
          roi'.points = rect_pts a w ∧ roi'.roi_type = "rectangle") ∧
      (a = w → draw_left_release st w egen = cancel_drawing st)) := by
  refine ⟨?_, ?_, ?_⟩
  · intro p1 p2
    obtain ⟨x1, y1, z1⟩ := p1
    obtain ⟨x2, y2, z2⟩ := p2
    rfl
  · norm_num [rect_pts]
  · intro st a w egen hdt hid ha
    have heq : a ≠ w → draw_left_release st w egen
        = finalize_draw { st with current_points := rect_pts a w } := by
      intro hne
      simp [draw_left_release, hdt, hid, ha, hne]
    refine ⟨heq, ?_, ?_⟩
    · intro hne hv
      rw [heq hne]
      have hv' : ({ st with current_points := rect_pts a w } :
          DrawingInteractorStyle).has_viewer = true := hv
      have hlen' : 2 ≤ ({ st with current_points := rect_pts a w } :
          DrawingInteractorStyle).current_points.length := by
        simp [rect_pts]
      rw [finalize_draw_commits _ hv' hlen']
      simp only [hdt]
      obtain ⟨_, h2, _, _, h5, _, _, _, h9⟩ :=
        add_roi_spec st.mgr
          (pyCapitalize DrawTool.RECTANGLE.value ++ " " ++
            toString ((st.mgr.rois.filter
              fun kv => kv.2.roi_type == DrawTool.RECTANGLE.value).length + 1))
          DrawTool.RECTANGLE.value st.slice st.orientation (rect_pts a w) none
      exact ⟨_, h9, h5, h2⟩
    · intro hew
      subst hew
      simp [draw_left_release, hdt, hid, ha]

/-- Witness for C5: releasing the concrete anchored rectangle session at
`(4,6,0)` commits a Region whose points are the clamped square. -/
theorem c5_rectangle_generator_witness :
    ∃ roi', assocGet (draw_left_release rectState (4, 6, 0)
          (fun _ _ => [])).mgr.rois rectState.mgr.next_id = some roi' ∧
      roi'.points = rect_pts (0, 0, 0) (4, 6, 0) ∧
      roi'.roi_type = "rectangle" :=
  ((c5_rectangle_generator.2.2 rectState (0, 0, 0) (4, 6, 0) (fun _ _ => [])
      (by rfl) (by rfl) (by rfl)).2.1 (by simp [Prod.ext_iff]) (by rfl))

/-! ## C6 -/

/-- **C6**: during a polygon draw session (viewer attached), a right
click with at least 3 committed vertices finalizes — the accumulated
points become a new `"polygon"` Region, no cancel signal is emitted and
the session ends — while a right click with fewer than 3 vertices
cancels: the store is untouched, the session is discarded and the
drawing-cancelled signal is emitted. -/
theorem c6_polygon_right_click :
    ∀ (st : DrawingInteractorStyle) (pick : Option Int),
      st.draw_tool = DrawTool.POLYGON → st.is_drawing = true →
      st.has_viewer = true →
      (3 ≤ st.current_points.length →
        (right_press st pick).cancelled_signals = st.cancelled_signals ∧
        (right_press st pick).is_drawing = false ∧
        (right_press st pick).current_points = [] ∧
        (right_press st pick).mgr.next_id = st.mgr.next_id + 1 ∧
        ∃ roi', assocGet (right_press st pick).mgr.rois st.mgr.next_id
            = some roi' ∧
          roi'.points = st.current_points ∧ roi'.roi_type = "polygon") ∧
      (st.current_points.length < 3 →
        right_press st pick = cancel_drawing st ∧
        (right_press st pick).mgr = st.mgr ∧
        (right_press st pick).cancelled_signals = st.cancelled_signals + 1 ∧
        (right_press st pick).is_drawing = false ∧
        (right_press st pick).draw_tool = DrawTool.NONE) := by
  intro st pick hdt hid hv
  constructor
  · intro h3
    have hrp : right_press st pick = finalize_draw st := by
      simp [right_press, hdt, hid, h3]
    rw [hrp]
    refine ⟨finalize_draw_cancelled st, rfl, rfl, ?_, ?_⟩
    · rw [finalize_draw_commits st hv (by omega)]
      exact (add_roi_spec st.mgr _ _ _ _ _ _).2.2.2.2.2.2.2.1
    · rw [finalize_draw_commits st hv (by omega)]
      obtain ⟨_, h2, _, _, h5, _, _, _, h9⟩ :=
        add_roi_spec st.mgr
          (pyCapitalize st.draw_tool.value ++ " " ++
            toString ((st.mgr.rois.filter
              fun kv => kv.2.roi_type == st.draw_tool.value).length + 1))
          st.draw_tool.value st.slice st.orientation st.current_points none
      exact ⟨_, h9, h5, by rw [h2, hdt]; rfl⟩
  · intro hlt
    have h3' : ¬ 3 ≤ st.current_points.length := by omega
    have hrp : right_press st pick = cancel_drawing st := by
      simp [right_press, hdt, hid, h3']
    rw [hrp]
    exact ⟨rfl, cancel_drawing_mgr st, cancel_drawing_cancelled st, rfl, rfl⟩

/-- Witness for C6 at the spec's concrete scenario: three committed
clicks `(0,0,0), (5,0,0), (5,5,0)`, then a right click. -/
theorem c6_polygon_right_click_witness :
    (right_press polyState3 none).cancelled_signals
        = polyState3.cancelled_signals ∧
    (right_press polyState3 none).is_drawing = false ∧
    (right_press polyState3 none).current_points = [] ∧
    (right_press polyState3 none).mgr.next_id = polyState3.mgr.next_id + 1 ∧
    ∃ roi', assocGet (right_press polyState3 none).mgr.rois
        polyState3.mgr.next_id = some roi' ∧
      roi'.points = polyState3.current_points ∧ roi'.roi_type = "polygon" :=
  (c6_polygon_right_click polyState3 none (by rfl) (by rfl) (by rfl)).1
    (by decide)

/-! ## C7 -/

/-- **C7 counterexample**: finalizing the three-click polygon session
leaves the active tool at `POLYGON` — `_finalize_draw` never touches
`draw_tool`, so the claimed "tool reset to none on finalize" fails. -/
theorem c7_finalize_keeps_tool_counterexample :
    (finalize_draw polyState3).draw_tool = DrawTool.POLYGON ∧
    DrawTool.POLYGON ≠ DrawTool.NONE :=
  ⟨by rw [finalize_draw_draw_tool]; rfl, by decide⟩

/-- **C7 (amended)**: both exits of the Drawing state clear the draw
session (`is_drawing` false, no accumulated points, no anchor, and —
when a viewer is attached — no preview), but only cancel resets the
active tool to none (and emits drawing-cancelled); finalize leaves the
active tool unchanged. -/
theorem c7_drawing_exits_amended :
    ∀ st : DrawingInteractorStyle,
      ((finalize_draw st).is_drawing = false ∧
       (finalize_draw st).current_points = [] ∧
       (finalize_draw st).anchor_point = none ∧
       (st.has_viewer = true → (finalize_draw st).preview_actor = false) ∧
       (finalize_draw st).draw_tool = st.draw_tool) ∧
      ((cancel_drawing st).is_drawing = false ∧
       (cancel_drawing st).current_points = [] ∧
       (cancel_drawing st).anchor_point = none ∧
       (st.has_viewer = true → (cancel_drawing st).preview_actor = false) ∧
       (cancel_drawing st).draw_tool = DrawTool.NONE ∧
       (cancel_drawing st).cancelled_signals = st.cancelled_signals + 1) :=
  fun st =>
    ⟨⟨rfl, rfl, rfl, finalize_draw_preview st, finalize_draw_draw_tool st⟩,
     ⟨rfl, rfl, rfl, cancel_drawing_preview st, rfl,
      cancel_drawing_cancelled st⟩⟩

/-- Witness for C7 (amended) at the concrete polygon session. -/
theorem c7_drawing_exits_amended_witness :
    (finalize_draw polyState3).preview_actor = false ∧
    (cancel_drawing polyState3).preview_actor = false :=
  ⟨(c7_drawing_exits_amended polyState3).1.2.2.2.1 rfl,
   (c7_drawing_exits_amended polyState3).2.2.2.2.1 rfl⟩

/-! ## C8 -/

theorem vis_roi_idem (sel : Option Nat) (cs co : Int) (roi : ROI) :
    vis_roi sel cs co (vis_roi sel cs co roi) = vis_roi sel cs co roi := by
  rcases roi with ⟨id, nm, ty, si, od, pts, col, act, hand⟩
  cases act <;> cases hand <;> rfl

theorem update_visibility_selected_id (m : ROIManager) (cs co : Int) :
    (update_visibility m cs co).selected_id = m.selected_id := rfl

/-- **C8**: after `update_visibility current_slice current_orientation`,
every ROI's contour actor is visible exactly when the ROI's stored slice
and orientation equal the given current values, and its handles actor is
visible exactly when additionally the ROI is the selected one; and the
operation is idempotent — running it twice with the same arguments
produces the same store as running it once. -/
theorem c8_update_visibility :
    (∀ (m : ROIManager) (cs co : Int) (i : Nat) (roi' : ROI),
      assocGet (update_visibility m cs co).rois i = some roi' →
      (∀ a, roi'.actor = some a →
        a.visible = (roi'.slice_index == cs && roi'.orientation == co)) ∧
      (∀ a, roi'.handles_actor = some a →
        a.visible = ((roi'.slice_index == cs && roi'.orientation == co)
          && ((update_visibility m cs co).selected_id == some roi'.roi_id)))) ∧
    (∀ (m : ROIManager) (cs co : Int),
      update_visibility (update_visibility m cs co) cs co
        = update_visibility m cs co) := by
  constructor
  · intro m cs co i roi' h
    rw [update_visibility_get] at h
    cases hro : assocGet m.rois i with
    | none =>
      rw [hro] at h
      cases h
    | some roi =>
      rw [hro] at h
      injection h with hh
      subst hh
      constructor
      · intro a ha
        simp only [vis_roi, Option.map_map] at ha ⊢
        obtain ⟨a0, _, ha2⟩ := Option.map_eq_some'.mp ha
        subst ha2
        rfl
      · intro a ha
        simp only [vis_roi, Option.map_map] at ha ⊢
        obtain ⟨a0, _, ha2⟩ := Option.map_eq_some'.mp ha
        subst ha2
        rfl
  · intro m cs co
    simp only [update_visibility, List.map_map]
    congr 1
    apply List.map_congr_left
    intro kv _
    simp only [Function.comp_apply]
    exact congrArg _ (vis_roi_idem m.selected_id cs co kv.2)

/-- Witness for C8 on the concrete one-ROI store: the visible flag of
the ROI's contour actor after `update_visibility 0 2` equals the
slice/orientation match. -/
theorem c8_update_visibility_witness :
    ∀ a, (vis_roi c1m.selected_id 0 2 c1roi).actor = some a →
      a.visible = ((vis_roi c1m.selected_id 0 2 c1roi).slice_index == 0 &&
        (vis_roi c1m.selected_id 0 2 c1roi).orientation == 2) :=
  (c8_update_visibility.1 c1m 0 2 1 (vis_roi c1m.selected_id 0 2 c1roi)
    (by rfl)).1

/-! ## C9 -/

/-- **C9**: the point-to-segment distance is the clamped-projection
distance of the specification (with the code's `1e-12` squared-length
guard realising the "(near-)zero-length" fallback to the point-to-point
distance), and on the spec's concrete inputs `A=(0,0)`, `B=(10,0)` it
returns exactly `5.0` both for `P=(5,5)` (interior projection) and for
`P=(-5,0)` (clamped to the `A` endpoint). -/
theorem c9_seg_dist_clamped_projection :
    (∀ px py ax ay bx0 by0 : ℚ,
      seg_dist px py ax ay bx0 by0
        = spec_seg_dist (px, py) (ax, ay) (bx0, by0)) ∧
    seg_dist 5 5 0 0 10 0 = 5 ∧
    seg_dist (-5) 0 0 0 10 0 = 5 := by
  refine ⟨?_, ?_, ?_⟩
  · intro px py ax ay bx0 by0
    simp only [seg_dist, spec_seg_dist, seg_dist_sq, euclid_dist,
      seg_closest_point]
    split_ifs with h
    · congr 1
      push_cast
      ring
    · congr 1
      push_cast
      ring
  · have h1 : seg_dist_sq 5 5 0 0 10 0 = 25 := by
      norm_num [seg_dist_sq, min_def, max_def]
    simp only [seg_dist, h1]
    rw [show ((25 : ℚ) : ℝ) = (5 : ℝ) ^ 2 by norm_num]
    exact Real.sqrt_sq (by norm_num)
  · have h1 : seg_dist_sq (-5) 0 0 0 10 0 = 25 := by
      norm_num [seg_dist_sq, min_def, max_def]
    simp only [seg_dist, h1]
    rw [show ((25 : ℚ) : ℝ) = (5 : ℝ) ^ 2 by norm_num]
    exact Real.sqrt_sq (by norm_num)

/-! ## C10 -/

/-- **C10**: `insert_vertex` is total over all integer edge indices —
for every live ROI it always grows the point list by exactly one, with
the new point placed at position `edge_idx + 1` under Python
`list.insert` semantics: an index at or past the point count appends at
the end and a sufficiently negative index prepends at the front; there
is no out-of-range refusal path. -/
theorem c10_insert_vertex_total :
    (∀ (xs : List Point) (i : Int) (x : Point),
        (pyInsert xs i x).length = xs.length + 1) ∧
    (∀ (xs : List Point) (i : Int) (x : Point), (xs.length : Int) ≤ i →
        pyInsert xs i x = xs ++ [x]) ∧
    (∀ (xs : List Point) (i : Int) (x : Point), i ≤ -(xs.length : Int) →
        pyInsert xs i x = x :: xs) ∧
    (∀ (m : ROIManager) (id : Nat) (roi : ROI) (edge_idx : Int) (pt : Point)
        (r : Bool), assocGet m.rois id = some roi →
      ∃ roi', assocGet (insert_vertex m id edge_idx pt r).rois id
          = some roi' ∧
        roi'.points = pyInsert roi.points (edge_idx + 1) pt ∧
        roi'.points.length = roi.points.length + 1) := by
  refine ⟨pyInsert_length, pyInsert_append, pyInsert_prepend, ?_⟩
  intro m id roi e pt r h
  obtain ⟨roi', hg, hins, _⟩ := insert_vertex_get m id e pt r id roi h
  exact ⟨roi', hg, hins rfl, by rw [hins rfl, pyInsert_length]⟩

/-- Witness for C10: inserting after the out-of-range edge index 5 on
the concrete 3-point ROI still succeeds and adds exactly one point. -/
theorem c10_insert_vertex_total_witness :
    ∃ roi', assocGet (insert_vertex c1m 1 5 (2, 2, 0) true).rois 1
        = some roi' ∧
      roi'.points = pyInsert c1roi.points (5 + 1) (2, 2, 0) ∧
      roi'.points.length = c1roi.points.length + 1 :=
  c10_insert_vertex_total.2.2.2 c1m 1 c1roi 5 (2, 2, 0) true (by rfl)

end CTPCD
